import Mathlib

/-!
Verification of the field-extraction engine of the grants.gov FOA ingestor
(src/main.py) against its natural-language specification.

The Python source is shallowly embedded: each extraction function becomes a
total Lean function over Lean strings (modelled as lists of characters where
convenient).  Regular-expression searches are embedded as explicit
left-to-right scans with the exact backtracking semantics the concrete
patterns exhibit.  The embedding models text over the character repertoire
the program actually processes: ASCII word characters, whitespace and
punctuation.  The regex metacharacter semantics (\s, \b, \w, case folding)
are therefore the ASCII ones.  The page text handed to find_label by the
program is always whitespace-normalized first (main.py line 235), so the
embedding of the dot and dollar metacharacters assumes newline-free text.
-/

/-! ## Basic character classes (Python regex, ASCII range) -/

/-- Python regex whitespace class \s over ASCII: space, TAB, LF, CR, VT, FF. -/
def isPySpace (c : Char) : Bool :=
  c = ' ' || c = Char.ofNat 9 || c = Char.ofNat 10 || c = Char.ofNat 13 ||
  c = Char.ofNat 11 || c = Char.ofNat 12

/-- ASCII letters, the regex class [A-Za-z]. -/
def isAlphaC (c : Char) : Bool := c.isAlpha

/-- ASCII digits, the regex class \d (ASCII fragment). -/
def isDigitC (c : Char) : Bool := c.isDigit

/-- Python regex word characters \w (ASCII fragment): letters, digits, underscore. -/
def isWordC (c : Char) : Bool := c.isAlphanum || c = '_'

/-- Case folding used by re.IGNORECASE and str.lower on ASCII. -/
def lowC (c : Char) : Char := c.toLower

/-! ## Text Normalizer (main.py clean_text, line 24-25)

clean_text collapses every whitespace run to a single space and strips the
ends; equivalently it joins the whitespace-separated words of the string
with single spaces, which is how the embedding computes it. -/

/-- Word accumulator for whitespace splitting: cur holds the current word
reversed; words are emitted when a whitespace character or the end of the
string is reached.  Structural recursion, so that the kernel can evaluate
clean_text on concrete strings. -/
def wordsGo (cur : List Char) : List Char → List (List Char)
  | [] => if cur.isEmpty then [] else [cur.reverse]
  | c :: r =>
    if isPySpace c then
      (if cur.isEmpty then wordsGo [] r else cur.reverse :: wordsGo [] r)
    else wordsGo (c :: cur) r

/-- The whitespace-separated words of a character list, in order. -/
def wordsOf (s : List Char) : List (List Char) := wordsGo [] s

/-- Join words with single spaces. -/
def joinWords : List (List Char) → List Char
  | [] => []
  | [w] => w
  | w :: ws => w ++ ' ' :: joinWords ws

/-- Whitespace-collapse and trim, on character lists. -/
def cleanL (s : List Char) : List Char := joinWords (wordsOf s)

/-- Embedding of clean_text (main.py line 24-25): collapse runs of
whitespace to one space and strip the ends. -/
def clean_text (s : String) : String := String.mk (cleanL s.toList)

/-! ## Label Extractor (main.py find_label, lines 81-86, and LABELS, lines 62-78) -/

/-- The label vocabulary LABELS (main.py lines 62-78). -/
def LABELS : List String :=
  [ "Agency",
    "Assistance Listings",
    "Posted date",
    "Closing",
    "Close date",
    "Closing date",
    "Archive date",
    "Funding opportunity number",
    "Cost sharing or matching requirement",
    "Funding instrument type",
    "Opportunity Category",
    "Opportunity Category Explanation",
    "Category of Funding Activity",
    "Category Explanation",
    "Last Updated" ]

/-- str.lower of a whole string. -/
def lowerStr (s : String) : String := String.mk (s.toList.map lowC)

/-- Case-insensitive literal match of p at the head of s (the way
re.IGNORECASE matches an escaped literal); returns the rest of s. -/
def ciStrip : List Char → List Char → Option (List Char)
  | [], s => some s
  | _ :: _, [] => none
  | p :: ps, c :: cs => if lowC p = lowC c then ciStrip ps cs else none

/-- Match of lab\s*: at the head of s (case-insensitive label, then
optional whitespace, then a colon); returns the text after the colon. -/
def labelColonAt (lab : List Char) (s : List Char) : Option (List Char) :=
  match ciStrip lab s with
  | none => none
  | some r =>
    match r.dropWhile isPySpace with
    | ':' :: rest => some rest
    | _ => none

/-- Some stop label occurs right at the head of s, followed by optional
whitespace and a colon. -/
def stopOcc (stops : List (List Char)) (s : List Char) : Bool :=
  stops.any fun l => (labelColonAt l s).isSome

/-- The lookahead (?=\s*(?:stop1|...|stopN)\s*:) of the find_label pattern,
evaluated at the head of s. -/
def lookStop (stops : List (List Char)) (s : List Char) : Bool :=
  stopOcc stops (s.dropWhile isPySpace)

/-- The non-greedy group (.*?) of the find_label pattern: consume characters
until the stop lookahead succeeds or the text ends (the alternative $ of the
lookahead). -/
def codeValue (stops : List (List Char)) : List Char → List Char
  | [] => []
  | c :: r => if lookStop stops (c :: r) then [] else c :: codeValue stops r

/-- re.search of the find_label pattern: at each position, try to match the
label, optional whitespace, colon, optional whitespace, then capture the
non-greedy group. -/
def findFrom (stops : List (List Char)) (lab : List Char) : List Char → Option (List Char)
  | [] => none
  | c :: r =>
    match labelColonAt lab (c :: r) with
    | some rest => some (codeValue stops (rest.dropWhile isPySpace))
    | none => findFrom stops lab r

/-- The stop vocabulary used by find_label for a given target label: every
vocabulary label whose lowercase form differs from the target's
(main.py line 82). -/
def otherLabels (label : String) : List (List Char) :=
  (LABELS.filter fun l => lowerStr l ≠ lowerStr label).map String.toList

/-- Embedding of find_label (main.py lines 81-86): regex search for
label\s*:\s*(.*?)(?=\s*(?:other-labels)\s*:|$) with IGNORECASE over the
(newline-free, normalized) page text, returning the whitespace-normalized
captured group. -/
def find_label (text label : String) : Option String :=
  (findFrom (otherLabels label) label.toList text.toList).map
    fun v => String.mk (cleanL v)

/-! ### Specification-worded Label Extractor (spec section 4.2), for the
refinement statement of claim C1: the value substring immediately following
"label :" up to but not including the next occurrence of "other-label :"
among the vocabulary, or end of text; absent if the target label does not
appear; case-insensitive matching; value whitespace-normalized. -/

/-- Spec wording: the value runs up to (but not including) the next
occurrence of another vocabulary label followed by a colon. -/
def specValue (stops : List (List Char)) : List Char → List Char
  | [] => []
  | c :: r => if stopOcc stops (c :: r) then [] else c :: specValue stops r

/-- Spec wording: find the first (case-insensitive) occurrence of the target
label followed by a colon; the value is the text immediately following it. -/
def findFromSpec (stops : List (List Char)) (lab : List Char) : List Char → Option (List Char)
  | [] => none
  | c :: r =>
    match labelColonAt lab (c :: r) with
    | some rest => some (specValue stops rest)
    | none => findFromSpec stops lab r

/-- The Label Extractor as worded by the specification (section 4.2). -/
def find_label_spec (text label : String) : Option String :=
  (findFromSpec (otherLabels label) label.toList text.toList).map
    fun v => String.mk (cleanL v)

/-! ## Lemmas about whitespace and word splitting -/


/-- Unfold isPySpace into the six concrete characters. -/
theorem isPySpace_cases {c : Char} (h : isPySpace c = true) :
    c = ' ' ∨ c = Char.ofNat 9 ∨ c = Char.ofNat 10 ∨ c = Char.ofNat 13 ∨
    c = Char.ofNat 11 ∨ c = Char.ofNat 12 := by
  have h' := h
  simp [isPySpace] at h'
  tauto

theorem wordsGo_ws_nil :
    ∀ w : List Char, (∀ x ∈ w, isPySpace x = true) → wordsGo [] w = []
  | [], _ => rfl
  | c :: r, h => by
    rw [wordsGo, if_pos (h c (by simp))]
    simpa [List.isEmpty] using wordsGo_ws_nil r fun x hx => h x (by simp [hx])

theorem wordsGo_append_ws {w : List Char} (hw : ∀ x ∈ w, isPySpace x = true) :
    ∀ (s cur : List Char), wordsGo cur (s ++ w) = wordsGo cur s
  | [], cur => by
    rw [List.nil_append]
    cases w with
    | nil => rfl
    | cons d w2 =>
      have h2 : wordsGo [] w2 = [] := wordsGo_ws_nil w2 fun x hx => hw x (by simp [hx])
      rw [wordsGo, wordsGo, if_pos (hw d (by simp)), h2]
  | c :: r, cur => by
    rw [List.cons_append, wordsGo, wordsGo]
    by_cases hc : isPySpace c = true
    · rw [if_pos hc, if_pos hc]
      by_cases hcur : cur.isEmpty = true
      · rw [if_pos hcur, if_pos hcur, wordsGo_append_ws hw r []]
      · rw [if_neg hcur, if_neg hcur, wordsGo_append_ws hw r []]
    · rw [if_neg hc, if_neg hc, wordsGo_append_ws hw r (c :: cur)]

theorem wordsOf_ws_cons {c : Char} {s : List Char} (hc : isPySpace c = true) :
    wordsOf (c :: s) = wordsOf s := by
  rw [wordsOf, wordsGo, if_pos hc, wordsOf]
  rfl

theorem cleanL_ws_append {w s : List Char} (h : ∀ x ∈ w, isPySpace x = true) :
    cleanL (w ++ s) = cleanL s := by
  induction w with
  | nil => rfl
  | cons c r ih =>
    rw [List.cons_append]
    unfold cleanL
    rw [wordsOf_ws_cons (h c (by simp))]
    exact ih fun x hx => h x (by simp [hx])

theorem cleanL_append_ws {s w : List Char} (h : ∀ x ∈ w, isPySpace x = true) :
    cleanL (s ++ w) = cleanL s := by
  unfold cleanL wordsOf
  rw [wordsGo_append_ws h s []]

/-! ## Code regex vs spec wording for the Label Extractor -/

/-- The property of a stop vocabulary that no stop label can match starting
at a whitespace character (true of every vocabulary drawn from LABELS,
whose labels all begin with letters). -/
def stopsOKP (stops : List (List Char)) : Prop :=
  ∀ (c : Char) (s : List Char), isPySpace c = true → stopOcc stops (c :: s) = false

theorem otherLabels_stopsOK (label : String) : stopsOKP (otherLabels label) := by
  intro c s hc
  rw [stopOcc, List.any_eq_false]
  intro l hl
  obtain ⟨t, ht, rfl⟩ := List.mem_map.mp hl
  have ht' : t ∈ LABELS := (List.mem_filter.mp ht).1
  rcases isPySpace_cases hc with rfl | rfl | rfl | rfl | rfl | rfl <;>
    fin_cases ht' <;> simp [labelColonAt, ciStrip, lowC]

/-- When the code's lookahead fires, the spec value from the same position
consists exactly of the whitespace run up to the stop occurrence. -/
theorem specValue_of_lookStop {stops : List (List Char)} (H : stopsOKP stops) :
    ∀ s, lookStop stops s = true → specValue stops s = s.takeWhile isPySpace
  | [], _ => rfl
  | c :: r, h => by
    by_cases hc : isPySpace c = true
    · have h1 : stopOcc stops (c :: r) = false := H c r hc
      have h2 : lookStop stops r = true := by
        rw [lookStop, List.dropWhile_cons, if_pos hc] at h
        exact h
      rw [specValue, if_neg (by simp [h1]), List.takeWhile_cons, if_pos hc,
        specValue_of_lookStop H r h2]
    · have h1 : stopOcc stops (c :: r) = true := by
        rw [lookStop, List.dropWhile_cons, if_neg hc] at h
        exact h
      rw [specValue, if_pos (by simp [h1]), List.takeWhile_cons, if_neg hc]

/-- The spec value equals the code's captured group followed by a run of
whitespace (the whitespace the code's lookahead swallows before the stop). -/
theorem specValue_eq_codeValue_ws {stops : List (List Char)} (H : stopsOKP stops) :
    ∀ s, ∃ w, specValue stops s = codeValue stops s ++ w ∧ ∀ x ∈ w, isPySpace x = true
  | [] => ⟨[], rfl, by simp⟩
  | c :: r => by
    by_cases hl : lookStop stops (c :: r) = true
    · refine ⟨(c :: r).takeWhile isPySpace, ?_, ?_⟩
      · rw [specValue_of_lookStop H _ hl, codeValue, if_pos (by simp [hl]), List.nil_append]
      · intro x hx
        exact List.mem_takeWhile_imp hx
    · have hl' : lookStop stops (c :: r) = false := by simpa using hl
      have hso : stopOcc stops (c :: r) = false := by
        by_cases hc : isPySpace c = true
        · exact H c r hc
        · rw [lookStop, List.dropWhile_cons, if_neg hc] at hl'
          exact hl'
      obtain ⟨w, hw, hws⟩ := specValue_eq_codeValue_ws H r
      refine ⟨w, ?_, hws⟩
      rw [specValue, if_neg (by simp [hso]), codeValue, if_neg (by simp [hl']), hw,
        List.cons_append]

/-- The spec value splits as the leading whitespace run plus the spec value
from the first non-whitespace position. -/
theorem specValue_ws_split {stops : List (List Char)} (H : stopsOKP stops) :
    ∀ s, specValue stops s = s.takeWhile isPySpace ++ specValue stops (s.dropWhile isPySpace)
  | [] => rfl
  | c :: r => by
    by_cases hc : isPySpace c = true
    · have hso : stopOcc stops (c :: r) = false := H c r hc
      rw [specValue, if_neg (by simp [hso]), List.takeWhile_cons, if_pos hc,
        List.dropWhile_cons, if_pos hc, List.cons_append, specValue_ws_split H r]
    · rw [List.takeWhile_cons, if_neg hc, List.dropWhile_cons, if_neg hc, List.nil_append]

/-- After normalization, the code's captured group and the spec's value are
the same string. -/
theorem cleanL_value_eq {stops : List (List Char)} (H : stopsOKP stops) (s : List Char) :
    cleanL (codeValue stops (s.dropWhile isPySpace)) = cleanL (specValue stops s) := by
  obtain ⟨w, hw, hws⟩ := specValue_eq_codeValue_ws H (s.dropWhile isPySpace)
  rw [specValue_ws_split H s,
    cleanL_ws_append (fun x hx => List.mem_takeWhile_imp hx), hw, cleanL_append_ws hws]

/-- The code's scan and the spec's scan agree up to value normalization. -/
theorem findFrom_eq {stops : List (List Char)} (H : stopsOKP stops) (lab : List Char) :
    ∀ s, (findFrom stops lab s).map cleanL = (findFromSpec stops lab s).map cleanL
  | [] => rfl
  | c :: r => by
    rw [findFrom, findFromSpec]
    cases h : labelColonAt lab (c :: r) with
    | some rest => simp [Option.map_some, cleanL_value_eq H rest]
    | none => exact findFrom_eq H lab r

/-- find_label agrees with its specification wording on every input. -/
theorem find_label_eq_spec (text label : String) :
    find_label text label = find_label_spec text label := by
  unfold find_label find_label_spec
  have h := congrArg (Option.map String.mk)
    (findFrom_eq (otherLabels_stopsOK label) label.toList text.toList)
  simpa [Option.map_map, Function.comp] using h

set_option maxRecDepth 16384

/-- C1: for every normalized page text and every target label, find_label
returns the whitespace-normalized value substring immediately following
"label :" up to but not including the next occurrence of any other
vocabulary label followed by ":", or up to end of text, with
case-insensitive label matching (stated as agreement with the
specification-worded extractor find_label_spec on all normalized texts);
in particular, on "Agency: National Science Foundation Closing date:
08/01/2025" with label "Agency" it returns "National Science Foundation". -/
theorem C1_find_label_refines_spec :
    (∀ raw label : String,
      find_label (clean_text raw) label = find_label_spec (clean_text raw) label) ∧
    find_label "Agency: National Science Foundation Closing date: 08/01/2025" "Agency" =
      some "National Science Foundation" :=
  ⟨fun raw label => find_label_eq_spec (clean_text raw) label, by decide⟩

/-- C3 (failing-input evaluation): the target label "Category Explanation"
is matched by find_label as a bare substring inside the longer vocabulary
label "Opportunity Category Explanation", although the specification
requires whole-label anchoring; the code returns the value instead of
reporting the label absent. -/
theorem C3_substring_label_match :
    find_label "Opportunity Category Explanation : Because of reasons" "Category Explanation" =
      some "Because of reasons" := by
  decide

/-! ## Date Normalizer (main.py to_iso_date, lines 28-37)

strptime is modelled for the four concrete formats the code tries.  The
strptime directives match: %m and %d one or two digits within range (months
1-12, days 1-31), %Y exactly four digits, %B a full English month name, %b
an abbreviated month name, both case-insensitively; literal separators
match themselves; the whole string must be consumed; the resulting calendar
date must exist (day within the month length, year at least 1), else
strptime raises ValueError, which to_iso_date catches and tries the next
format.  Inputs are whitespace-normalized (single spaces) before parsing,
so the format's whitespace matches a single space. -/

/-- Split a character list on a separator character (like str.split(sep)). -/
def splitOnC (sep : Char) : List Char → List (List Char)
  | [] => [[]]
  | c :: r =>
    if c = sep then [] :: splitOnC sep r
    else
      match splitOnC sep r with
      | h :: t => (c :: h) :: t
      | [] => [[c]]

def allDigits (l : List Char) : Bool := l.all isDigitC

/-- Numeric value of a digit string. -/
def digitsVal (l : List Char) : Nat := l.foldl (fun a c => a * 10 + (c.toNat - 48)) 0

/-- The strptime %m directive: one or two digits, value 1-12. -/
def monthTok (t : List Char) : Option Nat :=
  if allDigits t && (t.length = 1 || t.length = 2) &&
      1 ≤ digitsVal t && digitsVal t ≤ 12 then some (digitsVal t) else none

/-- The strptime %d directive: one or two digits, value 1-31. -/
def dayTok (t : List Char) : Option Nat :=
  if allDigits t && (t.length = 1 || t.length = 2) &&
      1 ≤ digitsVal t && digitsVal t ≤ 31 then some (digitsVal t) else none

/-- The strptime %Y directive: exactly four digits. -/
def yearTok (t : List Char) : Option Nat :=
  if allDigits t && t.length = 4 then some (digitsVal t) else none

/-- Full English month names (lowercase), as matched by %B. -/
def monthsFull : List (List Char × Nat) :=
  [("january".toList, 1), ("february".toList, 2), ("march".toList, 3),
   ("april".toList, 4), ("may".toList, 5), ("june".toList, 6),
   ("july".toList, 7), ("august".toList, 8), ("september".toList, 9),
   ("october".toList, 10), ("november".toList, 11), ("december".toList, 12)]

/-- Abbreviated English month names (lowercase), as matched by %b. -/
def monthsAbbr : List (List Char × Nat) :=
  [("jan".toList, 1), ("feb".toList, 2), ("mar".toList, 3), ("apr".toList, 4),
   ("may".toList, 5), ("jun".toList, 6), ("jul".toList, 7), ("aug".toList, 8),
   ("sep".toList, 9), ("oct".toList, 10), ("nov".toList, 11), ("dec".toList, 12)]

def lookupMonth : List (List Char × Nat) → List Char → Option Nat
  | [], _ => none
  | (n, m) :: t, w => if n = w then some m else lookupMonth t w

def isLeapYear (y : Nat) : Bool := y % 4 = 0 && (y % 100 ≠ 0 || y % 400 = 0)

def daysInMonth (y m : Nat) : Nat :=
  if m = 2 then (if isLeapYear y then 29 else 28)
  else if m = 4 || m = 6 || m = 9 || m = 11 then 30 else 31

/-- The datetime.date constructor check performed by strptime after the
regex match: the day must exist in the month and the year be at least 1
(datetime.MINYEAR); otherwise ValueError. -/
def mkValidDate (y m d : Nat) : Option (Nat × Nat × Nat) :=
  if 1 ≤ y && 1 ≤ d && d ≤ daysInMonth y m then some (y, m, d) else none

/-- strptime with format %m/%d/%Y on a normalized string. -/
def parse_mdy (s : List Char) : Option (Nat × Nat × Nat) :=
  match splitOnC '/' s with
  | [a, b, c] =>
    match monthTok a, dayTok b, yearTok c with
    | some m, some d, some y => mkValidDate y m d
    | _, _, _ => none
  | _ => none

/-- strptime with format "month-name day, year" on a normalized string:
the first word is the month name (case-insensitive), the second the day
digits immediately followed by a comma, the third the four-digit year. -/
def parseMonthName (tbl : List (List Char × Nat)) (s : List Char) : Option (Nat × Nat × Nat) :=
  match splitOnC ' ' s with
  | [w1, w2, w3] =>
    match lookupMonth tbl (w1.map lowC) with
    | some m =>
      match w2.getLast?, dayTok w2.dropLast, yearTok w3 with
      | some ',', some d, some y => mkValidDate y m d
      | _, _, _ => none
    | none => none
  | _ => none

/-- strptime with format "%B %d, %Y". -/
def parse_fullmonth (s : List Char) : Option (Nat × Nat × Nat) := parseMonthName monthsFull s

/-- strptime with format "%b %d, %Y". -/
def parse_abbrmonth (s : List Char) : Option (Nat × Nat × Nat) := parseMonthName monthsAbbr s

/-- strptime with format "%Y-%m-%d". -/
def parse_isoday (s : List Char) : Option (Nat × Nat × Nat) :=
  match splitOnC '-' s with
  | [a, b, c] =>
    match yearTok a, monthTok b, dayTok c with
    | some y, some m, some d => mkValidDate y m d
    | _, _, _ => none
  | _ => none

def digitChar (n : Nat) : Char := Char.ofNat (48 + n)

def pad2 (n : Nat) : List Char := [digitChar (n / 10 % 10), digitChar (n % 10)]

def pad4 (n : Nat) : List Char :=
  [digitChar (n / 1000 % 10), digitChar (n / 100 % 10), digitChar (n / 10 % 10),
   digitChar (n % 10)]

/-- date.isoformat(): zero-padded YYYY-MM-DD. -/
def isoRender (ymd : Nat × Nat × Nat) : String :=
  String.mk (pad4 ymd.1 ++ '-' :: pad2 ymd.2.1 ++ '-' :: pad2 ymd.2.2)

/-- Embedding of to_iso_date (main.py lines 28-37): falsy input gives None;
otherwise the cleaned string is tried against the four formats in order
%m/%d/%Y, "%B %d, %Y", "%b %d, %Y", %Y-%m-%d; the first that parses wins
and is rendered in ISO form; if none parses the cleaned string itself is
returned. -/
def to_iso_date (s : Option String) : Option String :=
  match s with
  | none => none
  | some str =>
    if str = "" then none
    else
      match parse_mdy (clean_text str).toList with
      | some ymd => some (isoRender ymd)
      | none =>
        match parse_fullmonth (clean_text str).toList with
        | some ymd => some (isoRender ymd)
        | none =>
          match parse_abbrmonth (clean_text str).toList with
          | some ymd => some (isoRender ymd)
          | none =>
            match parse_isoday (clean_text str).toList with
            | some ymd => some (isoRender ymd)
            | none => some (clean_text str)

/-- The exception surface of to_iso_date: a strptime call either returns a
date or raises ValueError. -/
def strptimeE (p : List Char → Option (Nat × Nat × Nat)) (cs : List Char) :
    Except String (Nat × Nat × Nat) :=
  match p cs with
  | some r => Except.ok r
  | none => Except.error "ValueError"

/-- to_iso_date with the try/except control flow made explicit: each
strptime attempt may raise ValueError, which the code catches (pass) before
trying the next format; no exception escapes. -/
def to_iso_dateE (s : Option String) : Except String (Option String) :=
  match s with
  | none => Except.ok none
  | some str =>
    if str = "" then Except.ok none
    else
      match strptimeE parse_mdy (clean_text str).toList with
      | Except.ok ymd => Except.ok (some (isoRender ymd))
      | Except.error _ =>
        match strptimeE parse_fullmonth (clean_text str).toList with
        | Except.ok ymd => Except.ok (some (isoRender ymd))
        | Except.error _ =>
          match strptimeE parse_abbrmonth (clean_text str).toList with
          | Except.ok ymd => Except.ok (some (isoRender ymd))
          | Except.error _ =>
            match strptimeE parse_isoday (clean_text str).toList with
            | Except.ok ymd => Except.ok (some (isoRender ymd))
            | Except.error _ => Except.ok (some (clean_text str))

/-- An ISO YYYY-MM-DD shaped string: four digits, dash, two digits, dash,
two digits. -/
def isIsoShape (s : String) : Bool :=
  match s.toList with
  | [a, b, c, d, e, f, g, h2, i, j] =>
    isDigitC a && isDigitC b && isDigitC c && isDigitC d && e = '-' &&
    isDigitC f && isDigitC g && h2 = '-' && isDigitC i && isDigitC j
  | _ => false

theorem digitChar_digit (x : Nat) : isDigitC (digitChar (x % 10)) = true := by
  have h : x % 10 < 10 := Nat.mod_lt _ (by norm_num)
  interval_cases h2 : x % 10 <;> decide

theorem isoRender_shape (ymd : Nat × Nat × Nat) : isIsoShape (isoRender ymd) = true := by
  obtain ⟨y, m, d⟩ := ymd
  simp [isoRender, isIsoShape, pad4, pad2, digitChar_digit]

/-- C4: to_iso_date tries the four formats month/day/year (slashes), full
month name, abbreviated month name, and ISO year-month-day, in that fixed
order; the first format that parses wins and yields a zero-padded ISO
YYYY-MM-DD string, and a non-empty string matching none of the formats is
returned whitespace-normalized but otherwise unchanged (never absent). -/
theorem C4_to_iso_date :
    (∀ s : String, s ≠ "" → (to_iso_date (some s)).isSome = true) ∧
    (∀ (s : String) ymd, s ≠ "" → parse_mdy (clean_text s).toList = some ymd →
      to_iso_date (some s) = some (isoRender ymd)) ∧
    (∀ (s : String) ymd, s ≠ "" → parse_mdy (clean_text s).toList = none →
      parse_fullmonth (clean_text s).toList = some ymd →
      to_iso_date (some s) = some (isoRender ymd)) ∧
    (∀ (s : String) ymd, s ≠ "" → parse_mdy (clean_text s).toList = none →
      parse_fullmonth (clean_text s).toList = none →
      parse_abbrmonth (clean_text s).toList = some ymd →
      to_iso_date (some s) = some (isoRender ymd)) ∧
    (∀ (s : String) ymd, s ≠ "" → parse_mdy (clean_text s).toList = none →
      parse_fullmonth (clean_text s).toList = none →
      parse_abbrmonth (clean_text s).toList = none →
      parse_isoday (clean_text s).toList = some ymd →
      to_iso_date (some s) = some (isoRender ymd)) ∧
    (∀ s : String, s ≠ "" → parse_mdy (clean_text s).toList = none →
      parse_fullmonth (clean_text s).toList = none →
      parse_abbrmonth (clean_text s).toList = none →
      parse_isoday (clean_text s).toList = none →
      to_iso_date (some s) = some (clean_text s)) ∧
    (∀ ymd, isIsoShape (isoRender ymd) = true) ∧
    (to_iso_date (some "08/01/2025") = some "2025-08-01" ∧
     to_iso_date (some "August 1, 2025") = some "2025-08-01" ∧
     to_iso_date (some "Aug 1, 2025") = some "2025-08-01" ∧
     to_iso_date (some "2025-08-01") = some "2025-08-01" ∧
     to_iso_date (some "02/30/2025") = some "02/30/2025" ∧
     to_iso_date (some "Rolling deadline") = some "Rolling deadline") := by
  refine ⟨?_, ?_, ?_, ?_, ?_, ?_, isoRender_shape,
    by decide, by decide, by decide, by decide, by decide, by decide⟩
  · intro s hs
    simp only [to_iso_date, if_neg hs]
    cases parse_mdy (clean_text s).toList with
    | some ymd => simp
    | none =>
      cases parse_fullmonth (clean_text s).toList with
      | some ymd => simp
      | none =>
        cases parse_abbrmonth (clean_text s).toList with
        | some ymd => simp
        | none =>
          cases parse_isoday (clean_text s).toList with
          | some ymd => simp
          | none => simp
  · intro s ymd hs h1
    simp only [to_iso_date, if_neg hs, h1]
  · intro s ymd hs h1 h2
    simp only [to_iso_date, if_neg hs, h1, h2]
  · intro s ymd hs h1 h2 h3
    simp only [to_iso_date, if_neg hs, h1, h2, h3]
  · intro s ymd hs h1 h2 h3 h4
    simp only [to_iso_date, if_neg hs, h1, h2, h3, h4]
  · intro s hs h1 h2 h3 h4
    simp only [to_iso_date, if_neg hs, h1, h2, h3, h4]

/-- C4 witness: the hypotheses of C4_to_iso_date hold at concrete inputs. -/
theorem C4_to_iso_date_witness :
    (to_iso_date (some "08/01/2025")).isSome = true ∧
    to_iso_date (some "Closing TBD") = some (clean_text "Closing TBD") :=
  ⟨C4_to_iso_date.1 "08/01/2025" (by decide),
   C4_to_iso_date.2.2.2.2.2.1 "Closing TBD" (by decide) (by decide) (by decide)
     (by decide) (by decide)⟩

/-! ## Date-Token Extractor (main.py first_date_token, lines 205-223)

The three regex patterns are embedded as deterministic per-position
matchers (the patterns' backtracking is forced by the literal separators,
so each position either matches uniquely or fails), scanned left to right
as re.search does.  The word boundary \b holds before a position if the
previous character is not a word character, and after a token if the next
character is absent or not a word character. -/

/-- Word boundary before the current position, given the previous character. -/
def boundaryB : Option Char → Bool
  | none => true
  | some c => !(isWordC c)

/-- Word boundary after a token: the remaining text is empty or starts with
a non-word character. -/
def boundaryAfter : List Char → Bool
  | [] => true
  | c :: _ => !(isWordC c)

/-- Matcher for pattern 1 at the current position:
\b([A-Za-z]+ \d{1,2}, \d{4})\b.  Returns the matched token. -/
def matchP1At (prev : Option Char) (s : List Char) : Option (List Char) :=
  if boundaryB prev = false then none
  else
    let w := s.takeWhile isAlphaC
    if w.isEmpty then none
    else
      match s.dropWhile isAlphaC with
      | ' ' :: r2 =>
        let d := r2.takeWhile isDigitC
        if d.isEmpty || decide (d.length > 2) then none
        else
          match r2.dropWhile isDigitC with
          | ',' :: ' ' :: r4 =>
            let y := r4.takeWhile isDigitC
            if y.length = 4 && boundaryAfter (r4.dropWhile isDigitC) then
              some (w ++ ' ' :: d ++ ',' :: ' ' :: y)
            else none
          | _ => none
      | _ => none

/-- Matcher for pattern 2 at the current position:
\b(\d{1,2}/\d{1,2}/\d{4})\b. -/
def matchP2At (prev : Option Char) (s : List Char) : Option (List Char) :=
  if boundaryB prev = false then none
  else
    let d1 := s.takeWhile isDigitC
    if d1.isEmpty || decide (d1.length > 2) then none
    else
      match s.dropWhile isDigitC with
      | '/' :: r2 =>
        let d2 := r2.takeWhile isDigitC
        if d2.isEmpty || decide (d2.length > 2) then none
        else
          match r2.dropWhile isDigitC with
          | '/' :: r4 =>
            let y := r4.takeWhile isDigitC
            if y.length = 4 && boundaryAfter (r4.dropWhile isDigitC) then
              some (d1 ++ '/' :: d2 ++ '/' :: y)
            else none
          | _ => none
      | _ => none

/-- Matcher for pattern 3 at the current position:
\b(\d{4}-\d{2}-\d{2})\b. -/
def matchP3At (prev : Option Char) (s : List Char) : Option (List Char) :=
  if boundaryB prev = false then none
  else
    let y := s.takeWhile isDigitC
    if y.length = 4 then
      match s.dropWhile isDigitC with
      | '-' :: r2 =>
        let m := r2.takeWhile isDigitC
        if m.length = 2 then
          match r2.dropWhile isDigitC with
          | '-' :: r4 =>
            let d := r4.takeWhile isDigitC
            if d.length = 2 && boundaryAfter (r4.dropWhile isDigitC) then
              some (y ++ '-' :: m ++ '-' :: d)
            else none
          | _ => none
        else none
      | _ => none
    else none

/-- re.search: try the matcher at every position from left to right. -/
def scanFor (p : Option Char → List Char → Option (List Char)) :
    Option Char → List Char → Option (List Char)
  | _, [] => none
  | prev, c :: r =>
    match p prev (c :: r) with
    | some m => some m
    | none => scanFor p (some c) r

/-- Embedding of first_date_token (main.py lines 205-223): falsy input
gives None; otherwise the cleaned text is scanned for the three patterns in
priority order; a pattern-1 or pattern-2 match is normalized through
to_iso_date; a pattern-3 match is returned verbatim; otherwise None. -/
def first_date_token (s : Option String) : Option String :=
  match s with
  | none => none
  | some str =>
    if str = "" then none
    else
      match scanFor matchP1At none (clean_text str).toList with
      | some tok => to_iso_date (some (String.mk tok))
      | none =>
        match scanFor matchP2At none (clean_text str).toList with
        | some tok => to_iso_date (some (String.mk tok))
        | none =>
          match scanFor matchP3At none (clean_text str).toList with
          | some tok => some (String.mk tok)
          | none => none

/-! ### Claim-worded Date-Token Extractor, for claim C5: the claim describes
pattern 1 as a month-name pattern (full or abbreviated month name), rather
than the arbitrary alphabetic word the code's regex accepts. -/

/-- Claim wording of pattern 1: like matchP1At but the word must be a full
or abbreviated English month name (case-insensitive). -/
def matchP1MonthAt (prev : Option Char) (s : List Char) : Option (List Char) :=
  match matchP1At prev s with
  | some tok =>
    let w := tok.takeWhile isAlphaC
    if (lookupMonth monthsFull (w.map lowC)).isSome ||
        (lookupMonth monthsAbbr (w.map lowC)).isSome then some tok else none
  | none => none

/-- The Date-Token Extractor as the claim words it: pattern 1 requires a
month name. -/
def first_date_token_claim (s : Option String) : Option String :=
  match s with
  | none => none
  | some str =>
    if str = "" then none
    else
      match scanFor matchP1MonthAt none (clean_text str).toList with
      | some tok => to_iso_date (some (String.mk tok))
      | none =>
        match scanFor matchP2At none (clean_text str).toList with
        | some tok => to_iso_date (some (String.mk tok))
        | none =>
          match scanFor matchP3At none (clean_text str).toList with
          | some tok => some (String.mk tok)
          | none => none

/-- C5 counterexample: pattern 1 of first_date_token accepts any alphabetic
word, not only month names, so on a text containing "Foo 1, 2025" before a
slash date the code returns the unparsed "Foo 1, 2025" while the claimed
month-name priority order would return the normalized slash date. -/
theorem C5_counterexample :
    first_date_token (some "Foo 1, 2025 closing 08/05/2025") = some "Foo 1, 2025" ∧
    first_date_token_claim (some "Foo 1, 2025 closing 08/05/2025") = some "2025-08-05" ∧
    first_date_token (some "Foo 1, 2025 closing 08/05/2025") ≠
      first_date_token_claim (some "Foo 1, 2025 closing 08/05/2025") := by
  refine ⟨by decide, by decide, by decide⟩

/-- C5 (amended): first_date_token scans the normalized span for, in
priority order, (1) any alphabetic word followed by a 1-2 digit day, a
comma-space and a 4-digit year (word boundaries enforced), (2) a 1-2
digit/1-2 digit/4-digit slash date, (3) a 4-2-2 digit ISO-shaped token;
matches of (1) and (2) are passed through the Date Normalizer (hence
returned unchanged when the word is not a month name or the numbers form no
real date), a match of (3) is returned verbatim, and absent or empty input
or no match yields absent output. -/
theorem C5_first_date_token :
    (first_date_token none = none ∧ first_date_token (some "") = none) ∧
    (∀ (s : String) tok, s ≠ "" → scanFor matchP1At none (clean_text s).toList = some tok →
      first_date_token (some s) = to_iso_date (some (String.mk tok))) ∧
    (∀ (s : String) tok, s ≠ "" → scanFor matchP1At none (clean_text s).toList = none →
      scanFor matchP2At none (clean_text s).toList = some tok →
      first_date_token (some s) = to_iso_date (some (String.mk tok))) ∧
    (∀ (s : String) tok, s ≠ "" → scanFor matchP1At none (clean_text s).toList = none →
      scanFor matchP2At none (clean_text s).toList = none →
      scanFor matchP3At none (clean_text s).toList = some tok →
      first_date_token (some s) = some (String.mk tok)) ∧
    (∀ s : String, s ≠ "" → scanFor matchP1At none (clean_text s).toList = none →
      scanFor matchP2At none (clean_text s).toList = none →
      scanFor matchP3At none (clean_text s).toList = none →
      first_date_token (some s) = none) ∧
    (first_date_token (some "Deadline: August 1, 2025.") = some "2025-08-01" ∧
     first_date_token (some "08/05/2025 or August 1, 2025") = some "2025-08-01" ∧
     first_date_token (some "due 08/05/2025") = some "2025-08-05" ∧
     first_date_token (some "2025-13-45 ok") = some "2025-13-45" ∧
     first_date_token (some "size 99/99/2025") = some "99/99/2025" ∧
     first_date_token (some "no dates here") = none) := by
  refine ⟨⟨rfl, by decide⟩, ?_, ?_, ?_, ?_,
    by decide, by decide, by decide, by decide, by decide, by decide⟩
  · intro s tok hs h1
    simp only [first_date_token, if_neg hs, h1]
  · intro s tok hs h1 h2
    simp only [first_date_token, if_neg hs, h1, h2]
  · intro s tok hs h1 h2 h3
    simp only [first_date_token, if_neg hs, h1, h2, h3]
  · intro s hs h1 h2 h3
    simp only [first_date_token, if_neg hs, h1, h2, h3]

/-- C5 witness: the priority branches of C5_first_date_token applied at
concrete spans. -/
theorem C5_first_date_token_witness :
    first_date_token (some "due August 9, 2025 5pm") =
      to_iso_date (some (String.mk "August 9, 2025".toList)) ∧
    first_date_token (some "by 08/05/2025 at noon") =
      to_iso_date (some (String.mk "08/05/2025".toList)) :=
  ⟨C5_first_date_token.2.1 "due August 9, 2025 5pm" "August 9, 2025".toList
      (by decide) (by decide),
   C5_first_date_token.2.2.1 "by 08/05/2025 at noon" "08/05/2025".toList
      (by decide) (by decide) (by decide)⟩

/-! ## Opportunity id extraction (main.py extract_opportunity_id, lines 52-59) -/

/-- Case-sensitive literal match at the head of s; returns the rest. -/
def litStrip : List Char → List Char → Option (List Char)
  | [], s => some s
  | _ :: _, [] => none
  | p :: ps, c :: cs => if p = c then litStrip ps cs else none

/-- Hex digit or hyphen: the regex class [0-9a-fA-F-]. -/
def isHexDash (c : Char) : Bool :=
  c.isDigit || ('a' ≤ c && c ≤ 'f') || ('A' ≤ c && c ≤ 'F') || c = '-'

/-- Hex digit only (for the claim-worded variant). -/
def isHexDig (c : Char) : Bool :=
  c.isDigit || ('a' ≤ c && c ≤ 'f') || ('A' ≤ c && c ≤ 'F')

/-- re.search for /search-results-detail/(\d+): at each position, match the
literal and then a non-empty greedy digit run. -/
def findDetail : List Char → Option (List Char)
  | [] => none
  | c :: r =>
    match litStrip "/search-results-detail/".toList (c :: r) with
    | some rest =>
      let run := rest.takeWhile isDigitC
      if run.isEmpty then findDetail r else some run
    | none => findDetail r

/-- re.search for /opportunity/([0-9a-fA-F-]{16,}): at each position, match
the literal and then a greedy run of at least 16 hex-or-hyphen characters. -/
def findOppHex : List Char → Option (List Char)
  | [] => none
  | c :: r =>
    match litStrip "/opportunity/".toList (c :: r) with
    | some rest =>
      let run := rest.takeWhile isHexDash
      if decide (run.length ≥ 16) then some run else findOppHex r
    | none => findOppHex r

/-- Embedding of extract_opportunity_id (main.py lines 52-59): the digit
pattern is tried first, then the hex-or-hyphen pattern; first match wins. -/
def extract_opportunity_id (url : String) : Option String :=
  match findDetail url.toList with
  | some r => some (String.mk r)
  | none =>
    match findOppHex url.toList with
    | some r => some (String.mk r)
    | none => none

/-- The claim-worded second pattern: 16 or more hex characters (no hyphen). -/
def findOppHexOnly : List Char → Option (List Char)
  | [] => none
  | c :: r =>
    match litStrip "/opportunity/".toList (c :: r) with
    | some rest =>
      let run := rest.takeWhile isHexDig
      if decide (run.length ≥ 16) then some run else findOppHexOnly r
    | none => findOppHexOnly r

/-- The extractor as the claim words it (hex characters only). -/
def extract_opportunity_id_claim (url : String) : Option String :=
  match findDetail url.toList with
  | some r => some (String.mk r)
  | none =>
    match findOppHexOnly url.toList with
    | some r => some (String.mk r)
    | none => none

/-- C8 counterexample: the code's second pattern accepts hyphens (the class
is [0-9a-fA-F-], built for UUIDs), so on a UUID URL the code extracts the
full 36-character identifier while the claimed hex-only pattern never
reaches 16 characters and yields absent. -/
theorem C8_counterexample :
    extract_opportunity_id "https://grants.gov/opportunity/abcdef01-2345-6789-abcd-ef0123456789" =
      some "abcdef01-2345-6789-abcd-ef0123456789" ∧
    extract_opportunity_id_claim
      "https://grants.gov/opportunity/abcdef01-2345-6789-abcd-ef0123456789" = none ∧
    extract_opportunity_id "https://grants.gov/opportunity/abcdef01-2345-6789-abcd-ef0123456789" ≠
      extract_opportunity_id_claim
        "https://grants.gov/opportunity/abcdef01-2345-6789-abcd-ef0123456789" := by
  refine ⟨by decide, by decide, by decide⟩

/-- C8 (amended): the opportunity identifier is extracted by trying, in
order, the path pattern /search-results-detail/(digits) and then
/opportunity/(16 or more characters, each a hex digit or a hyphen); the
first pattern that matches wins, and if neither matches the result is
absent. -/
theorem C8_extract_opportunity_id :
    (∀ (url : String) r, findDetail url.toList = some r →
      extract_opportunity_id url = some (String.mk r)) ∧
    (∀ url : String, findDetail url.toList = none →
      extract_opportunity_id url = (findOppHex url.toList).map String.mk) ∧
    (extract_opportunity_id "https://www.grants.gov/search-results-detail/358532" =
      some "358532" ∧
     extract_opportunity_id
       "https://grants.gov/opportunity/abcdef01-2345-6789-abcd-ef0123456789" =
       some "abcdef01-2345-6789-abcd-ef0123456789" ∧
     extract_opportunity_id
       "https://x.gov/search-results-detail/123/opportunity/abcdef0123456789ab" =
       some "123" ∧
     extract_opportunity_id "https://www.grants.gov/home" = none) := by
  refine ⟨?_, ?_, by decide, by decide, by decide, by decide⟩
  · intro url r h
    simp only [extract_opportunity_id, h]
  · intro url h
    simp only [extract_opportunity_id, h]
    cases findOppHex url.toList <;> rfl

/-- C8 witness: the first-pattern-wins branches applied at concrete URLs. -/
theorem C8_extract_opportunity_id_witness :
    extract_opportunity_id "https://x.gov/search-results-detail/42" =
      some (String.mk "42".toList) ∧
    extract_opportunity_id "https://x.gov/home" =
      (findOppHex "https://x.gov/home".toList).map String.mk :=
  ⟨C8_extract_opportunity_id.1 "https://x.gov/search-results-detail/42" "42".toList
      (by decide),
   C8_extract_opportunity_id.2.1 "https://x.gov/home" (by decide)⟩

/-! ## Link Classifier (main.py extract_links, lines 89-104, and the
sorted/dedup post-processing of main.py lines 275-277) -/

/-- str.strip(): remove leading and trailing whitespace. -/
def stripWsL (s : List Char) : List Char :=
  ((s.dropWhile isPySpace).reverse.dropWhile isPySpace).reverse

def stripStr (s : String) : String := String.mk (stripWsL s.toList)

/-- Literal prefix test on character lists. -/
def isPreL : List Char → List Char → Bool
  | [], _ => true
  | _ :: _, [] => false
  | a :: as, b :: bs => a = b && isPreL as bs

/-- str.startswith. -/
def startsWithL (p s : String) : Bool := isPreL p.toList s.toList

/-- Python substring test (p in s). -/
def containsSub : List Char → List Char → Bool
  | p, [] => p.isEmpty
  | p, c :: r => isPreL p (c :: r) || containsSub p r

/-- The PDF test of extract_links: the lowercased href ends with ".pdf" or
contains ".pdf?". -/
def isPdfHref (h : String) : Bool :=
  isPreL ".pdf".toList.reverse (h.toList.map lowC).reverse ||
  containsSub ".pdf?".toList (h.toList.map lowC)

/-- Embedding of extract_links (main.py lines 89-104) over the anchor href
strings: strip each href, discard empty ones, keep absolute (http...) ones,
partition into (external links, documents) preserving input order. -/
def extract_links : List String → List String × List String
  | [] => ([], [])
  | a :: r =>
    if stripStr a = "" then extract_links r
    else if startsWithL "http" (stripStr a) then
      (if isPdfHref (stripStr a) then
        ((extract_links r).1, stripStr a :: (extract_links r).2)
      else (stripStr a :: (extract_links r).1, (extract_links r).2))
    else extract_links r

/-- sorted(set(...)) of main.py lines 276-277: the sorted deduplicated list. -/
def sortDedup (l : List String) : List String := List.insertionSort (· ≤ ·) l.dedup

/-- The Link Classifier as the record assembler uses it: extract, then
deduplicate and sort both lists (main.py lines 275-277). -/
def classify_links (anchors : List String) : List String × List String :=
  (sortDedup (extract_links anchors).1, sortDedup (extract_links anchors).2)

/-- The external-link branch of extract_links as a filterMap function. -/
def extOf (a : String) : Option String :=
  if stripStr a = "" then none
  else if startsWithL "http" (stripStr a) then
    (if isPdfHref (stripStr a) then none else some (stripStr a))
  else none

/-- The document branch of extract_links as a filterMap function. -/
def docOf (a : String) : Option String :=
  if stripStr a = "" then none
  else if startsWithL "http" (stripStr a) then
    (if isPdfHref (stripStr a) then some (stripStr a) else none)
  else none

theorem extract_links_eq (l : List String) :
    extract_links l = (l.filterMap extOf, l.filterMap docOf) := by
  induction l with
  | nil => rfl
  | cons a r ih =>
    by_cases h1 : stripStr a = ""
    · simp [extract_links, List.filterMap_cons, extOf, docOf, h1, ih]
    · by_cases h2 : startsWithL "http" (stripStr a) = true
      · by_cases h3 : isPdfHref (stripStr a) = true
        · simp [extract_links, List.filterMap_cons, extOf, docOf, h1, h2, h3, ih]
        · simp [extract_links, List.filterMap_cons, extOf, docOf, h1, h2, h3, ih]
      · simp [extract_links, List.filterMap_cons, extOf, docOf, h1, h2, ih]

theorem sortDedup_perm_eq {l1 l2 : List String} (hp : l1.Perm l2) :
    sortDedup l1 = sortDedup l2 := by
  unfold sortDedup
  refine List.eq_of_perm_of_sorted ?_ (List.sorted_insertionSort _ _)
    (List.sorted_insertionSort _ _)
  exact (List.perm_insertionSort _ _).trans (hp.dedup.trans (List.perm_insertionSort _ _).symm)

theorem mem_sortDedup {h : String} {l : List String} : h ∈ sortDedup l ↔ h ∈ l := by
  unfold sortDedup
  rw [(List.perm_insertionSort (α := String) (· ≤ ·) l.dedup).mem_iff]
  exact List.mem_dedup

theorem sortDedup_nodup (l : List String) : (sortDedup l).Nodup :=
  (List.perm_insertionSort (α := String) (· ≤ ·) l.dedup).nodup_iff.mpr (List.nodup_dedup l)

theorem docOf_eq_some {a h : String} :
    docOf a = some h ↔
      stripStr a = h ∧ startsWithL "http" h = true ∧ isPdfHref h = true := by
  constructor
  · intro hd
    unfold docOf at hd
    by_cases h1 : stripStr a = ""
    · rw [if_pos h1] at hd; cases hd
    · rw [if_neg h1] at hd
      by_cases h2 : startsWithL "http" (stripStr a) = true
      · rw [if_pos h2] at hd
        by_cases h3 : isPdfHref (stripStr a) = true
        · rw [if_pos h3] at hd
          injection hd with hh
          subst hh
          exact ⟨rfl, h2, h3⟩
        · rw [if_neg h3] at hd; cases hd
      · rw [if_neg h2] at hd; cases hd
  · rintro ⟨rfl, h2, h3⟩
    unfold docOf
    have h1 : ¬ stripStr a = "" := by
      intro he; rw [he] at h2; exact absurd h2 (by decide)
    rw [if_neg h1, if_pos h2, if_pos h3]

theorem extOf_eq_some {a h : String} :
    extOf a = some h ↔
      stripStr a = h ∧ startsWithL "http" h = true ∧ isPdfHref h = false := by
  constructor
  · intro hd
    unfold extOf at hd
    by_cases h1 : stripStr a = ""
    · rw [if_pos h1] at hd; cases hd
    · rw [if_neg h1] at hd
      by_cases h2 : startsWithL "http" (stripStr a) = true
      · rw [if_pos h2] at hd
        by_cases h3 : isPdfHref (stripStr a) = true
        · rw [if_pos h3] at hd; cases hd
        · rw [if_neg h3] at hd
          injection hd with hh
          subst hh
          exact ⟨rfl, h2, Bool.eq_false_iff.mpr h3⟩
      · rw [if_neg h2] at hd; cases hd
  · rintro ⟨rfl, h2, h3⟩
    unfold extOf
    have h1 : ¬ stripStr a = "" := by
      intro he; rw [he] at h2; exact absurd h2 (by decide)
    rw [if_neg h1, if_pos h2, if_neg (by simp [h3])]

/-- C6: the Link Classifier produces two deduplicated, lexicographically
sorted lists, documents (absolute hrefs whose lowercase form ends in
".pdf" or contains ".pdf?") and external links (all other absolute hrefs),
with relative or empty hrefs discarded, and its output is invariant under
permutation of the input anchors; the spec's concrete href set behaves as
stated. -/
theorem C6_classify_links :
    (∀ l1 l2 : List String, l1.Perm l2 → classify_links l1 = classify_links l2) ∧
    (∀ l : List String,
      (classify_links l).1.Sorted (· ≤ ·) ∧ (classify_links l).1.Nodup ∧
      (classify_links l).2.Sorted (· ≤ ·) ∧ (classify_links l).2.Nodup) ∧
    (∀ (l : List String) (h : String), h ∈ (classify_links l).2 ↔
      ∃ a ∈ l, stripStr a = h ∧ startsWithL "http" h = true ∧ isPdfHref h = true) ∧
    (∀ (l : List String) (h : String), h ∈ (classify_links l).1 ↔
      ∃ a ∈ l, stripStr a = h ∧ startsWithL "http" h = true ∧ isPdfHref h = false) ∧
    classify_links ["https://a.gov/x.pdf", "https://a.gov/page", "/relative"] =
      (["https://a.gov/page"], ["https://a.gov/x.pdf"]) := by
  refine ⟨?_, ?_, ?_, ?_, by decide⟩
  · intro l1 l2 hp
    unfold classify_links
    rw [extract_links_eq, extract_links_eq,
      sortDedup_perm_eq (hp.filterMap extOf), sortDedup_perm_eq (hp.filterMap docOf)]
  · intro l
    exact ⟨List.sorted_insertionSort _ _, sortDedup_nodup _,
      List.sorted_insertionSort _ _, sortDedup_nodup _⟩
  · intro l h
    unfold classify_links
    rw [extract_links_eq]
    rw [mem_sortDedup, List.mem_filterMap]
    constructor
    · rintro ⟨a, ha, hd⟩
      exact ⟨a, ha, docOf_eq_some.mp hd⟩
    · rintro ⟨a, ha, hd⟩
      exact ⟨a, ha, docOf_eq_some.mpr hd⟩
  · intro l h
    unfold classify_links
    rw [extract_links_eq]
    rw [mem_sortDedup, List.mem_filterMap]
    constructor
    · rintro ⟨a, ha, hd⟩
      exact ⟨a, ha, extOf_eq_some.mp hd⟩
    · rintro ⟨a, ha, hd⟩
      exact ⟨a, ha, extOf_eq_some.mpr hd⟩

/-- C6 witness: permuting a concrete anchor list leaves both output lists
identical. -/
theorem C6_classify_links_witness :
    classify_links ["/relative", "https://a.gov/page", "https://a.gov/x.pdf"] =
      classify_links ["https://a.gov/x.pdf", "https://a.gov/page", "/relative"] :=
  C6_classify_links.1 _ _ (by decide)

/-! ## The Opportunity record (main.py dataclass Opportunity, lines 147-188) -/

/-- A field value as it appears in the asdict dictionary: Python None, a
string, a list of strings, an integer, or a boolean. -/
inductive FieldVal : Type
  | vnull : FieldVal
  | vstr : String → FieldVal
  | vlist : List String → FieldVal
  | vint : Int → FieldVal
  | vbool : Bool → FieldVal
deriving DecidableEq

/-- The Opportunity dataclass: every field optional (default None), except
tags which defaults to the empty list. -/
structure Opportunity : Type where
  opportunity_id : Option String := none
  opportunity_number : Option String := none
  opportunity_title : Option String := none
  opportunity_status : Option String := none
  agency_code : Option String := none
  category : Option String := none
  category_explanation : Option String := none
  post_date : Option String := none
  close_date : Option String := none
  close_date_description : Option String := none
  archive_date : Option String := none
  is_cost_sharing : Option Bool := none
  expected_number_of_awards : Option Int := none
  estimated_total_program_funding : Option Int := none
  award_floor : Option Int := none
  award_ceiling : Option Int := none
  additional_info_url : Option String := none
  additional_info_url_description : Option String := none
  opportunity_assistance_listings : Option (List String) := none
  funding_instruments : Option (List String) := none
  funding_categories : Option (List String) := none
  funding_category_description : Option String := none
  applicant_types : Option (List String) := none
  applicant_eligibility_description : Option String := none
  agency_name : Option String := none
  top_level_agency_name : Option String := none
  agency_contact_description : Option String := none
  agency_email_address : Option String := none
  agency_email_address_description : Option String := none
  is_forecast : Option Bool := none
  forecasted_post_date : Option String := none
  forecasted_close_date : Option String := none
  forecasted_close_date_description : Option String := none
  forecasted_award_date : Option String := none
  forecasted_project_start_date : Option String := none
  fiscal_year : Option Int := none
  created_at : Option String := none
  updated_at : Option String := none
  summary_description : Option String := none
  tags : List String := []

def ovs (o : Option String) : FieldVal := o.elim FieldVal.vnull FieldVal.vstr

def ovl (o : Option (List String)) : FieldVal := o.elim FieldVal.vnull FieldVal.vlist

def ovi (o : Option Int) : FieldVal := o.elim FieldVal.vnull FieldVal.vint

def ovb (o : Option Bool) : FieldVal := o.elim FieldVal.vnull FieldVal.vbool

/-- dataclasses.asdict: the record as an ordered keyed mapping, fields in
declaration order. -/
def asdictL (o : Opportunity) : List (String × FieldVal) :=
  [ ("opportunity_id", ovs o.opportunity_id),
    ("opportunity_number", ovs o.opportunity_number),
    ("opportunity_title", ovs o.opportunity_title),
    ("opportunity_status", ovs o.opportunity_status),
    ("agency_code", ovs o.agency_code),
    ("category", ovs o.category),
    ("category_explanation", ovs o.category_explanation),
    ("post_date", ovs o.post_date),
    ("close_date", ovs o.close_date),
    ("close_date_description", ovs o.close_date_description),
    ("archive_date", ovs o.archive_date),
    ("is_cost_sharing", ovb o.is_cost_sharing),
    ("expected_number_of_awards", ovi o.expected_number_of_awards),
    ("estimated_total_program_funding", ovi o.estimated_total_program_funding),
    ("award_floor", ovi o.award_floor),
    ("award_ceiling", ovi o.award_ceiling),
    ("additional_info_url", ovs o.additional_info_url),
    ("additional_info_url_description", ovs o.additional_info_url_description),
    ("opportunity_assistance_listings", ovl o.opportunity_assistance_listings),
    ("funding_instruments", ovl o.funding_instruments),
    ("funding_categories", ovl o.funding_categories),
    ("funding_category_description", ovs o.funding_category_description),
    ("applicant_types", ovl o.applicant_types),
    ("applicant_eligibility_description", ovs o.applicant_eligibility_description),
    ("agency_name", ovs o.agency_name),
    ("top_level_agency_name", ovs o.top_level_agency_name),
    ("agency_contact_description", ovs o.agency_contact_description),
    ("agency_email_address", ovs o.agency_email_address),
    ("agency_email_address_description", ovs o.agency_email_address_description),
    ("is_forecast", ovb o.is_forecast),
    ("forecasted_post_date", ovs o.forecasted_post_date),
    ("forecasted_close_date", ovs o.forecasted_close_date),
    ("forecasted_close_date_description", ovs o.forecasted_close_date_description),
    ("forecasted_award_date", ovs o.forecasted_award_date),
    ("forecasted_project_start_date", ovs o.forecasted_project_start_date),
    ("fiscal_year", ovi o.fiscal_year),
    ("created_at", ovs o.created_at),
    ("updated_at", ovs o.updated_at),
    ("summary_description", ovs o.summary_description),
    ("tags", FieldVal.vlist o.tags) ]

/-! ## Pruning (main.py drop_empty_fields, lines 190-203) -/

/-- A value survives pruning when it is not None, not the empty string, and
not an empty list. -/
def keepField (v : FieldVal) : Bool :=
  !(v = FieldVal.vnull) && !(v = FieldVal.vstr "") && !(v = FieldVal.vlist [])

/-- Embedding of drop_empty_fields (main.py lines 190-203): keep exactly
the entries whose value is not None, not "", and not []. -/
def drop_empty_fields (data : List (String × FieldVal)) : List (String × FieldVal) :=
  data.filter fun kv => keepField kv.2

/-! ## Tag Classifier (main.py apply_tags, lines 117-144, TAG_RULES 107-114) -/

/-- The tag rule table TAG_RULES (main.py lines 107-114). -/
def TAG_RULES : List (String × List String) :=
  [ ("health_biomed", ["health", "cdc", "nih", "disease", "registry"]),
    ("ai_ml", ["machine learning", "artificial intelligence", "deep learning", "llm", "nlp"]),
    ("cybersecurity", ["cyber", "ransomware", "phishing", "zero trust", "infosec"]),
    ("education", ["education", "teacher", "school", "curriculum"]),
    ("climate_environment", ["climate", "environment", "sustainability", "emissions"]),
    ("energy", ["energy", "renewable", "solar", "wind", "grid", "battery"]) ]

/-- The lowercase haystack of apply_tags: title, agency name, category,
space-joined funding categories and eligibility description, joined with
single spaces and lowercased. -/
def hayOf (o : Opportunity) : List Char :=
  (String.intercalate " "
    [o.opportunity_title.getD "", o.agency_name.getD "", o.category.getD "",
     String.intercalate " " (o.funding_categories.getD []),
     o.applicant_eligibility_description.getD ""]).toList.map lowC

/-- The rule-table loop of apply_tags: emit each tag, in table order, whose
keyword list has a member occurring in the haystack. -/
def ruleTags (hay : List Char) : List (String × List String) → List String
  | [] => []
  | (t, kws) :: rest =>
    if kws.any fun kw => containsSub kw.toList hay then t :: ruleTags hay rest
    else ruleTags hay rest

/-- Python truthiness of an optional string field (if opp.close_date:). -/
def truthyOptStr : Option String → Bool
  | none => false
  | some s => !(s = "")

/-- The final dedup loop of apply_tags, preserving first occurrences. -/
def dedupGo (seen : List String) : List String → List String
  | [] => []
  | t :: r => if t ∈ seen then dedupGo seen r else t :: dedupGo (t :: seen) r

/-- Embedding of apply_tags (main.py lines 117-144): rule-table tags in
table order, then has_deadline when the close date is truthy, then
cost_sharing when the flag is exactly True, deduplicated preserving order. -/
def apply_tags (o : Opportunity) : Opportunity :=
  let tags3 := ruleTags (hayOf o) TAG_RULES ++
    (if truthyOptStr o.close_date then ["has_deadline"] else []) ++
    (if o.is_cost_sharing = some true then ["cost_sharing"] else [])
  { o with tags := dedupGo [] tags3 }

/-! ## The cost-sharing flag assignment (main.py lines 255-257) -/

/-- cost_sharing.strip().lower().startswith("y"). -/
def startsWithY (v : String) : Bool :=
  match (stripWsL v.toList).map lowC with
  | 'y' :: _ => true
  | _ => false

/-- Embedding of main.py lines 255-257: the flag is assigned only when the
extracted label value is truthy (present and non-empty); it is set to
whether the value, stripped and lowercased, starts with "y". -/
def is_cost_sharing_of (page_text : String) : Option Bool :=
  match find_label page_text "Cost sharing or matching requirement" with
  | some v => if v = "" then none else some (startsWithY v)
  | none => none

/-! ## Lemmas about the tag classifier -/

theorem ruleTags_sublist (hay : List Char) :
    ∀ rules : List (String × List String), (ruleTags hay rules).Sublist (rules.map Prod.fst)
  | [] => List.Sublist.refl _
  | (t, kws) :: rest => by
    rw [ruleTags, List.map_cons]
    by_cases h : (kws.any fun kw => containsSub kw.toList hay) = true
    · rw [if_pos h]
      exact (ruleTags_sublist hay rest).cons₂ t
    · rw [if_neg h]
      exact (ruleTags_sublist hay rest).cons t

theorem ruleTags_mem_iff (hay : List Char) (t : String) :
    ∀ rules : List (String × List String),
      (t ∈ ruleTags hay rules ↔
        ∃ kws, (t, kws) ∈ rules ∧ (kws.any fun kw => containsSub kw.toList hay) = true)
  | [] => by simp [ruleTags]
  | (t2, kws2) :: rest => by
    rw [ruleTags]
    by_cases h : (kws2.any fun kw => containsSub kw.toList hay) = true
    · rw [if_pos h]
      constructor
      · intro hm
        rcases List.mem_cons.mp hm with rfl | hm2
        · exact ⟨kws2, by simp, h⟩
        · obtain ⟨kws, hk, ha⟩ := (ruleTags_mem_iff hay t rest).mp hm2
          exact ⟨kws, by simp [hk], ha⟩
      · rintro ⟨kws, hk, ha⟩
        rcases List.mem_cons.mp hk with heq | hk2
        · rw [Prod.mk.injEq] at heq
          obtain ⟨rfl, rfl⟩ := heq
          exact List.mem_cons_self _ _
        · exact List.mem_cons_of_mem _ ((ruleTags_mem_iff hay t rest).mpr ⟨kws, hk2, ha⟩)
    · rw [if_neg h]
      constructor
      · intro hm
        obtain ⟨kws, hk, ha⟩ := (ruleTags_mem_iff hay t rest).mp hm
        exact ⟨kws, by simp [hk], ha⟩
      · rintro ⟨kws, hk, ha⟩
        rcases List.mem_cons.mp hk with heq | hk2
        · rw [Prod.mk.injEq] at heq
          obtain ⟨rfl, rfl⟩ := heq
          exact absurd ha h
        · exact (ruleTags_mem_iff hay t rest).mpr ⟨kws, hk2, ha⟩

theorem dedupGo_mem (x : String) : ∀ (l seen : List String),
    (x ∈ dedupGo seen l ↔ (x ∈ l ∧ x ∉ seen))
  | [], seen => by simp [dedupGo]
  | t :: r, seen => by
    rw [dedupGo]
    by_cases h : t ∈ seen
    · rw [if_pos h, dedupGo_mem x r seen]
      constructor
      · rintro ⟨h1, h2⟩
        exact ⟨List.mem_cons_of_mem _ h1, h2⟩
      · rintro ⟨h1, h2⟩
        rcases List.mem_cons.mp h1 with rfl | h3
        · exact absurd h h2
        · exact ⟨h3, h2⟩
    · rw [if_neg h]
      constructor
      · intro hm
        rcases List.mem_cons.mp hm with rfl | h3
        · exact ⟨List.mem_cons_self _ _, h⟩
        · obtain ⟨h4, h5⟩ := (dedupGo_mem x r (t :: seen)).mp h3
          exact ⟨List.mem_cons_of_mem _ h4, fun hx => h5 (List.mem_cons_of_mem _ hx)⟩
      · rintro ⟨h1, h2⟩
        rcases List.mem_cons.mp h1 with rfl | h3
        · exact List.mem_cons_self _ _
        · by_cases hxt : x = t
          · subst hxt
            exact List.mem_cons_self _ _
          · refine List.mem_cons_of_mem _ ((dedupGo_mem x r (t :: seen)).mpr ⟨h3, ?_⟩)
            intro hx
            rcases List.mem_cons.mp hx with h5 | h6
            · exact hxt h5
            · exact h2 h6

theorem dedupGo_eq_self : ∀ l seen : List String, l.Nodup → (∀ t ∈ l, t ∉ seen) →
    dedupGo seen l = l
  | [], _, _, _ => rfl
  | t :: r, seen, hnd, hs => by
    rw [dedupGo, if_neg (hs t (List.mem_cons_self _ _))]
    have hnd2 := List.nodup_cons.mp hnd
    have hcl : ∀ x ∈ r, x ∉ t :: seen := by
      intro x hx hmem
      rcases List.mem_cons.mp hmem with rfl | h6
      · exact hnd2.1 hx
      · exact hs x (List.mem_cons_of_mem _ hx) h6
    rw [dedupGo_eq_self r (t :: seen) hnd2.2 hcl]

theorem ruleNames_nodup : (TAG_RULES.map Prod.fst).Nodup := by decide

theorem ruleTags_nodup (hay : List Char) : (ruleTags hay TAG_RULES).Nodup :=
  (ruleTags_sublist hay TAG_RULES).nodup ruleNames_nodup

theorem tags3_nodup (o : Opportunity) :
    (ruleTags (hayOf o) TAG_RULES ++
     (if truthyOptStr o.close_date then ["has_deadline"] else []) ++
     (if o.is_cost_sharing = some true then ["cost_sharing"] else [])).Nodup := by
  have hrt := ruleTags_nodup (hayOf o)
  have hsub := (ruleTags_sublist (hayOf o) TAG_RULES).subset
  have f1 : "has_deadline" ∉ ruleTags (hayOf o) TAG_RULES :=
    fun h => absurd (hsub h) (by decide)
  have f2 : "cost_sharing" ∉ ruleTags (hayOf o) TAG_RULES :=
    fun h => absurd (hsub h) (by decide)
  by_cases hd : truthyOptStr o.close_date = true <;>
    by_cases hc : o.is_cost_sharing = some true <;>
      simp [hd, hc, List.nodup_append, hrt, f1, f2]

theorem apply_tags_tags (o : Opportunity) :
    (apply_tags o).tags =
      ruleTags (hayOf o) TAG_RULES ++
      (if truthyOptStr o.close_date then ["has_deadline"] else []) ++
      (if o.is_cost_sharing = some true then ["cost_sharing"] else []) := by
  show dedupGo [] _ = _
  exact dedupGo_eq_self _ [] (tags3_nodup o) (by intro t ht; simp)

/-- The record of the spec's tag example: title "AI for Climate Resilience"
and a populated close date. -/
def oppC2 : Opportunity :=
  { opportunity_title := some "AI for Climate Resilience", close_date := some "2025-08-01" }

/-- C2 counterexample: on the claimed record the code's tag list is
["climate_environment", "has_deadline"]; ai_ml is not emitted, because no
ai_ml keyword ("machine learning", "artificial intelligence", "deep
learning", "llm", "nlp") occurs in the lowercased concatenation "ai for
climate resilience ...". -/
theorem C2_counterexample :
    (apply_tags oppC2).tags = ["climate_environment", "has_deadline"] ∧
    "ai_ml" ∉ (apply_tags oppC2).tags := by
  refine ⟨by decide, by decide⟩

/-- C2 (amended): a rule-table tag is emitted exactly when some keyword of
that tag is a substring of the lowercased concatenation, in table order and
without duplicates; the record with title "AI for Climate Resilience" and a
populated close date produces exactly climate_environment followed by
has_deadline (ai_ml is not emitted since none of its keywords occurs in the
concatenation). -/
theorem C2_apply_tags :
    (∀ (o : Opportunity) (t : String), t ∈ TAG_RULES.map Prod.fst →
      (t ∈ (apply_tags o).tags ↔
        ∃ kws, (t, kws) ∈ TAG_RULES ∧
          (kws.any fun kw => containsSub kw.toList (hayOf o)) = true)) ∧
    (∀ o : Opportunity, (apply_tags o).tags =
      ruleTags (hayOf o) TAG_RULES ++
      (if truthyOptStr o.close_date then ["has_deadline"] else []) ++
      (if o.is_cost_sharing = some true then ["cost_sharing"] else [])) ∧
    (∀ o : Opportunity, (apply_tags o).tags.Nodup) ∧
    ((apply_tags oppC2).tags = ["climate_environment", "has_deadline"]) := by
  refine ⟨?_, apply_tags_tags, ?_, by decide⟩
  · intro o t ht
    have h1 : t ≠ "has_deadline" := by
      intro he
      subst he
      revert ht
      decide
    have h2 : t ≠ "cost_sharing" := by
      intro he
      subst he
      revert ht
      decide
    rw [apply_tags_tags, List.mem_append, List.mem_append]
    constructor
    · intro hm
      rcases hm with hm1 | hm2
      · rcases hm1 with hr | hb
        · exact (ruleTags_mem_iff _ t TAG_RULES).mp hr
        · exfalso
          by_cases hd : truthyOptStr o.close_date = true
          · rw [if_pos hd] at hb
            exact h1 (by simpa using hb)
          · rw [if_neg hd] at hb
            exact absurd hb (by simp)
      · exfalso
        by_cases hc : o.is_cost_sharing = some true
        · rw [if_pos hc] at hm2
          exact h2 (by simpa using hm2)
        · rw [if_neg hc] at hm2
          exact absurd hm2 (by simp)
    · intro hex
      exact Or.inl (Or.inl ((ruleTags_mem_iff _ t TAG_RULES).mpr hex))
  · intro o
    rw [apply_tags_tags]
    exact tags3_nodup o

/-- C2 witness: the rule-emission equivalence applied at the concrete
record and tag. -/
theorem C2_apply_tags_witness :
    "climate_environment" ∈ (apply_tags oppC2).tags :=
  (C2_apply_tags.1 oppC2 "climate_environment" (by decide)).mpr
    ⟨["climate", "environment", "sustainability", "emissions"], by decide, by decide⟩

/-- The record of the spec's pruning example. -/
def oppC7 : Opportunity :=
  { opportunity_title := some "", funding_instruments := some [],
    close_date := some "2025-08-01" }

/-- C7: pruning removes exactly the entries whose value is None, the empty
string, or the empty list, keeps all other entries unchanged and in order,
and is idempotent; of the example fields opportunity_title = "",
funding_instruments = [] and close_date = "2025-08-01", only close_date
survives. -/
theorem C7_drop_empty_fields :
    (∀ d, drop_empty_fields (drop_empty_fields d) = drop_empty_fields d) ∧
    (∀ d, (drop_empty_fields d).Sublist d) ∧
    (∀ d (k : String) (v : FieldVal),
      (k, v) ∈ drop_empty_fields d ↔ ((k, v) ∈ d ∧ keepField v = true)) ∧
    ("close_date" ∈ (drop_empty_fields (asdictL oppC7)).map Prod.fst ∧
     "opportunity_title" ∉ (drop_empty_fields (asdictL oppC7)).map Prod.fst ∧
     "funding_instruments" ∉ (drop_empty_fields (asdictL oppC7)).map Prod.fst) := by
  refine ⟨?_, ?_, ?_, by decide, by decide, by decide⟩
  · intro d
    unfold drop_empty_fields
    rw [List.filter_filter]
    simp [Bool.and_self]
  · intro d
    exact List.filter_sublist d
  · intro d k v
    unfold drop_empty_fields
    rw [List.mem_filter]

/-- C10: the cost-sharing flag is set only when the "Cost sharing or
matching requirement" label value is present and non-empty; it is true
exactly when the value, stripped and lowercased, begins with "y"; an
absent label or empty value leaves the flag absent; and the cost_sharing
tag is emitted exactly when the flag is exactly true. -/
theorem C10_cost_sharing :
    (∀ pt : String, find_label pt "Cost sharing or matching requirement" = none →
      is_cost_sharing_of pt = none) ∧
    (∀ pt : String, find_label pt "Cost sharing or matching requirement" = some "" →
      is_cost_sharing_of pt = none) ∧
    (∀ pt v : String, find_label pt "Cost sharing or matching requirement" = some v →
      v ≠ "" → is_cost_sharing_of pt = some (startsWithY v)) ∧
    (∀ o : Opportunity, "cost_sharing" ∈ (apply_tags o).tags ↔
      o.is_cost_sharing = some true) ∧
    (startsWithY "Yes" = true ∧ startsWithY " yes, required" = true ∧
     startsWithY "No" = false) := by
  refine ⟨?_, ?_, ?_, ?_, by decide, by decide, by decide⟩
  · intro pt h
    simp only [is_cost_sharing_of, h]
  · intro pt h
    simp only [is_cost_sharing_of, h, if_pos]
  · intro pt v h hv
    simp only [is_cost_sharing_of, h, if_neg hv]
  · intro o
    rw [apply_tags_tags, List.mem_append, List.mem_append]
    have f2 : "cost_sharing" ∉ ruleTags (hayOf o) TAG_RULES :=
      fun h => absurd ((ruleTags_sublist (hayOf o) TAG_RULES).subset h) (by decide)
    constructor
    · intro hm
      rcases hm with hm1 | hm2
      · rcases hm1 with hr | hb
        · exact absurd hr f2
        · exfalso
          by_cases hd : truthyOptStr o.close_date = true
          · rw [if_pos hd] at hb
            exact absurd hb (by decide)
          · rw [if_neg hd] at hb
            exact absurd hb (by simp)
      · by_cases hc : o.is_cost_sharing = some true
        · exact hc
        · rw [if_neg hc] at hm2
          exact absurd hm2 (by simp)
    · intro hc
      rw [if_pos hc]
      exact Or.inr (by simp)

/-- C10 witness: the branches of C10_cost_sharing at concrete page texts. -/
theorem C10_cost_sharing_witness :
    is_cost_sharing_of "Cost sharing or matching requirement : Yes" =
      some (startsWithY "Yes") ∧
    is_cost_sharing_of "no labels in this text" = none :=
  ⟨C10_cost_sharing.2.2.1 "Cost sharing or matching requirement : Yes" "Yes"
      (by decide) (by decide),
   C10_cost_sharing.1 "no labels in this text" (by decide)⟩

/-- Every strptime exception inside to_iso_date is caught: the explicit
exception-surface version always returns ok with the plain result. -/
theorem to_iso_dateE_ok (s : Option String) :
    to_iso_dateE s = Except.ok (to_iso_date s) := by
  cases s with
  | none => rfl
  | some str =>
    by_cases hs : str = ""
    · subst hs
      rfl
    · simp only [to_iso_dateE, to_iso_date, if_neg hs, strptimeE]
      cases parse_mdy (clean_text str).toList <;>
        cases parse_fullmonth (clean_text str).toList <;>
          cases parse_abbrmonth (clean_text str).toList <;>
            cases parse_isoday (clean_text str).toList <;> rfl

/-- C9: each core extractor is total on every input: to_iso_date catches
every ValueError its strptime calls can raise (its exception-explicit
version always returns ok), and find_label, first_date_token,
extract_opportunity_id and the cost-sharing flag assignment each return a
value or an absent result for every string. -/
theorem C9_extractors_total :
    (∀ s : Option String, to_iso_dateE s = Except.ok (to_iso_date s)) ∧
    (∀ t l : String, find_label t l = none ∨ ∃ v, find_label t l = some v) ∧
    (∀ s : Option String, first_date_token s = none ∨ ∃ v, first_date_token s = some v) ∧
    (∀ u : String, extract_opportunity_id u = none ∨ ∃ v, extract_opportunity_id u = some v) ∧
    (∀ pt : String, is_cost_sharing_of pt = none ∨ ∃ b, is_cost_sharing_of pt = some b) := by
  refine ⟨to_iso_dateE_ok, ?_, ?_, ?_, ?_⟩
  · intro t l
    cases h : find_label t l with
    | none => exact Or.inl rfl
    | some v => exact Or.inr ⟨v, rfl⟩
  · intro s
    cases h : first_date_token s with
    | none => exact Or.inl rfl
    | some v => exact Or.inr ⟨v, rfl⟩
  · intro u
    cases h : extract_opportunity_id u with
    | none => exact Or.inl rfl
    | some v => exact Or.inr ⟨v, rfl⟩
  · intro pt
    cases h : is_cost_sharing_of pt with
    | none => exact Or.inl rfl
    | some b => exact Or.inr ⟨b, rfl⟩
